/-
A shallow embedding of the stacks HTTP surface (src-tauri/src/http.rs) and
the tailer loop (src-tauri/src/main.rs), together with the collaborators
they use (view projection, store, streaming ingestion), verified against
the repository's specification.
-/
import Mathlib

namespace Stacks

/-- HTTP methods distinguished by the handler. -/
inductive Method
  | GET
  | POST
  | other
deriving DecidableEq

/-- Mime type of stored content. Modelled from the spec: the store module is
not in the visible sources; the spec distinguishes known mime types (text is
the one the HTTP surface constructs) from unknown ones. -/
inductive MimeType
  | TextPlain
  | ImagePng
deriving DecidableEq

/-- Blob metadata (spec section 3): mime type and content type. -/
structure ContentMeta where
  mime_type : MimeType
  content_type : String
deriving DecidableEq

/-- A frame or packet record (spec section 3): id, optional parent stack,
optional blob hash. -/
structure Frame where
  id : Nat
  stack_id : Option Nat
  hash : Option Nat
deriving DecidableEq

/-- Read-side item (spec section 3): the materialization of a Frame. -/
structure Item where
  id : Nat
  stack_id : Option Nat
  hash : Option Nat
deriving DecidableEq

/-- Modelled from the spec: the view projection (section 4.5), items kept in
first-merge order. The view module is not in the visible sources. -/
structure View where
  items : List Item
deriving DecidableEq

/-- Point lookup of an item by id (spec section 4.5). -/
def View.lookup (v : View) (id : Nat) : Option Item :=
  v.items.find? (fun it => it.id == id)

/-- Ordered children of a stack: the items whose stack id matches, in
first-merge order (spec section 4.5). -/
def View.children (v : View) (stack : Item) : List Item :=
  v.items.filter (fun it => it.stack_id == some stack.id)

/-- Modelled from the spec: merge (section 4.5) upserts an Item keyed by the
frame id, setting hash and stack id; in place when the id is present. -/
def View.merge (v : View) (f : Frame) : View :=
  if v.items.any (fun it => it.id == f.id) then
    ⟨v.items.map (fun it => if it.id == f.id then ⟨it.id, f.stack_id, f.hash⟩ else it)⟩
  else
    ⟨v.items ++ [⟨f.id, f.stack_id, f.hash⟩]⟩

/-- Content hash: a deterministic address for a byte list (spec section 3). -/
def contentHash (b : List Nat) : Nat :=
  b.foldl (fun a x => a * 257 + x % 256 + 1) 0

/-- Modelled from the spec: blob cache plus frame log (sections 4.1 and 4.2);
the store module is not in the visible sources. -/
structure Store where
  contents : List (Nat × List Nat)
  metas : List (Nat × ContentMeta)
  frames : List Frame
deriving DecidableEq

/-- Hash-keyed blob fetch (spec section 4.2). -/
def Store.get_content (s : Store) (h : Nat) : Option (List Nat) :=
  (s.contents.find? (fun p => p.1 == h)).map (fun p => p.2)

/-- Hash-keyed metadata fetch (spec section 4.2). -/
def Store.get_content_meta (s : Store) (h : Nat) : Option ContentMeta :=
  (s.metas.find? (fun p => p.1 == h)).map (fun p => p.2)

/-- Modelled from the spec: put (section 4.2) stores bytes under their content
hash, idempotent on repeated identical bytes. -/
def Store.put (s : Store) (b : List Nat) : Nat × Store :=
  let h := contentHash b
  if s.contents.any (fun p => p.1 == h) then (h, s)
  else (h, { s with contents := s.contents ++ [(h, b)] })

/-- Modelled from the spec: append the committed frame to the frame log. -/
def Store.insert_packet (s : Store) (f : Frame) : Store :=
  { s with frames := s.frames ++ [f] }

/-- Guarded shared state (spec section 2): view projection, store, UI
selection, plus the id source minting time-ordered identifiers. -/
structure State where
  view : View
  store : Store
  selection : Option Nat
  next_id : Nat
deriving DecidableEq

/-- Mint a fresh identifier (spec section 3: monotonically increasing ids). -/
def State.mint (s : State) : Nat × State :=
  (s.next_id, { s with next_id := s.next_id + 1 })

/-- Modelled from the spec: get_curr_stack (section 4.5 selection state)
returns the currently selected stack when set; when unset a new top-level
stack is minted and merged. The state module is not in the visible sources. -/
def State.get_curr_stack (s : State) : Nat × State :=
  match s.selection with
  | some sid => (sid, s)
  | none =>
      let (i, s') := s.mint
      (i, { s' with view := s'.view.merge ⟨i, none, none⟩ })

/-- Value of a base-36 digit character, case-insensitive. -/
def base36Digit (c : Char) : Option Nat :=
  if c.toNat ≥ 48 ∧ c.toNat ≤ 57 then some (c.toNat - 48)
  else if c.toNat ≥ 65 ∧ c.toNat ≤ 90 then some (c.toNat - 55)
  else if c.toNat ≥ 97 ∧ c.toNat ≤ 122 then some (c.toNat - 87)
  else none

/-- Parse of the SCRU128 25-digit base-36 textual form, exactly 25 digits and
a value below 2 ^ 128 (Scru128Id::from_str in handle). -/
def parseScru128 (str : String) : Option Nat :=
  if str.length = 25 then
    (str.toList.foldlM (fun acc c => (base36Digit c).map (fun d => acc * 36 + d)) 0).bind
      (fun v => if v < 2 ^ 128 then some v else none)
  else none

/-- Character of a base-36 digit, lowercase (canonical SCRU128 encoding). -/
def base36Char (n : Nat) : Char :=
  if n < 10 then Char.ofNat (48 + n) else Char.ofNat (87 + n)

/-- Canonical 25-digit base-36 rendering of an id (Scru128Id::to_string). -/
def scru128ToString (v : Nat) : String :=
  String.mk ((List.range 25).map (fun i => base36Char (v / 36 ^ (24 - i) % 36)))

/-- Path of a request mapped to an id: strip the leading slash, then parse
(handle, http.rs lines 20 to 23). -/
def pathToId (path : String) : Option Nat :=
  match path.data with
  | [] => none
  | c :: rest => if c = '/' then parseScru128 (String.mk rest) else none

/-- The Unicode replacement character. -/
def repl : Char := Char.ofNat 0xFFFD

/-- Continuation byte test for UTF-8 decoding. -/
def isCont (b : Nat) : Bool := 128 ≤ b && b < 192

/-- Worker for the lossy UTF-8 decoding, structurally recursive on a fuel
that bounds the number of decoding steps; every step consumes at least one
byte, so fuel equal to the byte count never runs out. -/
def utf8LossyGo : Nat → List Nat → List Char
  | _, [] => []
  | 0, _ :: _ => []
  | fuel + 1, b :: rest =>
    if b < 128 then Char.ofNat b :: utf8LossyGo fuel rest
    else if b < 194 then repl :: utf8LossyGo fuel rest
    else if b < 224 then
      match rest with
      | [] => [repl]
      | b2 :: rest2 =>
          if isCont b2 then Char.ofNat ((b - 192) * 64 + (b2 - 128)) :: utf8LossyGo fuel rest2
          else repl :: utf8LossyGo fuel rest
    else if b < 240 then
      match rest with
      | [] => [repl]
      | b2 :: rest2 =>
          if (if b = 224 then 160 else 128) ≤ b2 ∧ b2 < (if b = 237 then 160 else 192) then
            match rest2 with
            | [] => [repl]
            | b3 :: rest3 =>
                if isCont b3 then
                  Char.ofNat ((b - 224) * 4096 + (b2 - 128) * 64 + (b3 - 128))
                    :: utf8LossyGo fuel rest3
                else repl :: utf8LossyGo fuel rest2
          else repl :: utf8LossyGo fuel rest
    else if b < 245 then
      match rest with
      | [] => [repl]
      | b2 :: rest2 =>
          if (if b = 240 then 144 else 128) ≤ b2 ∧ b2 < (if b = 244 then 144 else 192) then
            match rest2 with
            | [] => [repl]
            | b3 :: rest3 =>
                if isCont b3 then
                  match rest3 with
                  | [] => [repl]
                  | b4 :: rest4 =>
                      if isCont b4 then
                        Char.ofNat
                            ((b - 240) * 262144 + (b2 - 128) * 4096 + (b3 - 128) * 64 + (b4 - 128))
                          :: utf8LossyGo fuel rest4
                      else repl :: utf8LossyGo fuel rest3
                else repl :: utf8LossyGo fuel rest2
          else repl :: utf8LossyGo fuel rest
    else repl :: utf8LossyGo fuel rest

/-- Lossy UTF-8 decoding of a byte list (String::from_utf8_lossy): valid
sequences decode to their scalar value; each maximal invalid subpart becomes
one replacement character. -/
def utf8Lossy (l : List Nat) : List Char :=
  utf8LossyGo l.length l

/-- Unicode whitespace (char::is_whitespace): the White_Space code points. -/
def rustWhitespace (c : Char) : Bool :=
  ([9, 10, 11, 12, 13, 32, 133, 160, 5760,
    8192, 8193, 8194, 8195, 8196, 8197, 8198, 8199, 8200, 8201, 8202,
    8232, 8233, 8239, 8287, 12288] : List Nat).contains c.toNat

/-- Number of whitespace-separated words (str::split_whitespace().count()). -/
def wordCount (cs : List Char) : Nat :=
  ((cs.splitOnP rustWhitespace).filter (fun w => !w.isEmpty)).length

/-- UTF-8 encoding of one character (String::into_bytes). -/
def utf8EncodeChar (c : Char) : List Nat :=
  let n := c.toNat
  if n < 128 then [n]
  else if n < 2048 then [192 + n / 64, 128 + n % 64]
  else if n < 65536 then [224 + n / 4096, 128 + n / 64 % 64, 128 + n % 64]
  else [240 + n / 262144, 128 + n / 4096 % 64, 128 + n / 64 % 64, 128 + n % 64]

/-- UTF-8 encoding of a string (String::into_bytes). -/
def utf8Encode (str : String) : List Nat :=
  (str.toList.map utf8EncodeChar).flatten

/-- The preview-rendering collaborator (ui::generate_preview), an external
black box per the spec: theme, optional content bytes, mime type, content
type and a streaming flag, to a rendering string. -/
abbrev PreviewFn := String → Option (List Nat) → MimeType → String → Bool → String

/-- Response body: either text or raw streamed bytes. -/
inductive HBody
  | text (s : String)
  | bytes (b : List Nat)
deriving DecidableEq

/-- An HTTP response: status, the headers set by the response builder, body. -/
structure HResponse where
  status : Nat
  headers : List (String × String)
  body : HBody
deriving DecidableEq

/-- The 404 response built by handle and get. -/
def notFound : HResponse :=
  ⟨404, [], HBody.text "Not Found"⟩

/-- Derived per-chunk view data (the Content struct in http.rs post). -/
structure Content where
  mime_type : MimeType
  content_type : String
  terse : String
  tiktokens : Nat
  words : Nat
  chars : Nat
  preview : String
deriving DecidableEq

/-- Events emitted through the app handle during request handling. -/
inductive Event
  | refreshItems
  | streaming (id : Nat) (c : Content)
deriving DecidableEq

/-- Resolve one child of a stack to its metadata and content (the unwrapped
store lookups in get_stack's collection loop, http.rs lines 49 to 63). -/
def resolveChild (store : Store) (it : Item) : Option (ContentMeta × List Nat) := do
  let h ← it.hash
  let meta ← store.get_content_meta h
  let content ← store.get_content h
  pure (meta, content)

/-- Bytes sent for one child: the preview rendering when the Accept header is
exactly text/html, the raw content otherwise, followed by one newline byte
(get_stack's channel loop, http.rs lines 66 to 81). -/
def renderChild (pv : PreviewFn) (accept : String) (p : ContentMeta × List Nat) : List Nat :=
  (if accept = "text/html" then
    utf8Encode (pv "light" (some p.2) p.1.mime_type p.1.content_type false)
  else p.2) ++ [10]

/-- GET of a stack item (get_stack, http.rs lines 44 to 83): resolve every
child under the lock, then stream each child's bytes and a newline. -/
def get_stack (pv : PreviewFn) (s : State) (item : Item) (accept : String) : Option HResponse := do
  let ps ← (s.view.children item).mapM (resolveChild s.store)
  pure ⟨200, [], HBody.bytes ((ps.map (renderChild pv accept)).flatten)⟩

/-- GET of one id (get, http.rs lines 86 to 114): an unknown id is 404; an
item with no parent stack is served by get_stack; a leaf item streams its
blob bytes with no headers set. -/
def get (pv : PreviewFn) (s : State) (id : Nat) (accept : String) : Option HResponse :=
  match s.view.lookup id with
  | none => some notFound
  | some item =>
      if item.stack_id.isNone then get_stack pv s item accept
      else do
        let h ← item.hash
        let content ← s.store.get_content h
        pure ⟨200, [], HBody.bytes content⟩

/-- Modelled from the spec: a streaming ingestion packet (section 4.4), a
placeholder frame plus the accumulation buffer. The store module is not in
the visible sources. -/
structure InProgressStream where
  packet : Frame
  content : List Nat
deriving DecidableEq

/-- Modelled from the spec: begin (section 4.4) mints a placeholder frame with
no hash, attached to the given stack, buffer seeded with initial bytes. -/
def InProgressStream.new (stack_id : Option Nat) (initial : List Nat) (id : Nat) :
    InProgressStream :=
  ⟨⟨id, stack_id, none⟩, initial⟩

/-- Modelled from the spec: append (section 4.4) extends the buffer. -/
def InProgressStream.append (st : InProgressStream) (chunk : List Nat) : InProgressStream :=
  { st with content := st.content ++ chunk }

/-- Modelled from the spec: end_stream (section 4.4) puts the buffer into the
blob cache and returns the committed frame carrying the same packet id and
stack id together with the resulting hash. -/
def InProgressStream.end_stream (st : InProgressStream) (store : Store) : Frame × Store :=
  let p := store.put st.content
  (⟨st.packet.id, st.packet.stack_id, some p.1⟩, p.2)

/-- Result of the opening critical section of POST. -/
structure BeginResult where
  streamer : InProgressStream
  state : State
  events : List Event
deriving DecidableEq

/-- The critical section opening POST (post, http.rs lines 121 to 128): read
the current stack, clear the selection, begin the packet, merge the
placeholder into the view, emit a refresh event. -/
def postBegin (s : State) : BeginResult :=
  let q := s.get_curr_stack
  let s2 := { q.2 with selection := none }
  let m := s2.mint
  let streamer := InProgressStream.new (some q.1) [] m.1
  ⟨streamer, { m.2 with view := m.2.view.merge streamer.packet }, [Event.refreshItems]⟩

/-- One Ok chunk of the POST body loop (http.rs lines 145 to 168): append,
render a preview, recompute the derived view data from the lossy UTF-8
decoding of the buffer, and emit a streaming event with the packet id. -/
def processChunk (pv : PreviewFn) (st : InProgressStream) (chunk : List Nat) :
    InProgressStream × Event :=
  let st' := st.append chunk
  let preview := pv "dark" (some st'.content) MimeType.TextPlain "Text" true
  let cs := utf8Lossy st'.content
  (st', Event.streaming st'.packet.id
    ⟨MimeType.TextPlain, "Text", String.mk (cs.take 100), 0, wordCount cs, cs.length, preview⟩)

/-- One turn of the POST body loop over a chunk read result (http.rs lines
143 to 174): an Ok chunk is processed, an Err chunk is logged and skipped. -/
def postLoopF (pv : PreviewFn) (acc : InProgressStream × List Event)
    (ch : Except String (List Nat)) : InProgressStream × List Event :=
  match ch with
  | Except.ok c =>
      let r := processChunk pv acc.1 c
      (r.1, acc.2 ++ [r.2])
  | Except.error _ => acc

/-- The POST body loop (http.rs lines 143 to 174): Ok chunks are processed,
Err chunks are logged and skipped. -/
def postLoop (pv : PreviewFn) (st : InProgressStream) (body : List (Except String (List Nat))) :
    InProgressStream × List Event :=
  body.foldl (postLoopF pv) (st, [])

/-- The closing critical section of POST (http.rs lines 176 to 181): commit
via end_stream, merge the committed frame, append it to the frame log, emit
a refresh event. -/
def postEnd (s : State) (st : InProgressStream) : State × List Event :=
  let q := st.end_stream s.store
  ({ s with store := q.2.insert_packet q.1, view := s.view.merge q.1 }, [Event.refreshItems])

/-- Result of the POST handler. -/
structure PostResult where
  resp : HResponse
  state : State
  events : List Event
deriving DecidableEq

/-- POST of the bare slash (post, http.rs lines 116 to 187): begin, consume
the body, commit, and respond 200 with the packet id rendered as text. -/
def post (pv : PreviewFn) (s : State) (body : List (Except String (List Nat))) : PostResult :=
  let b := postBegin s
  let r := postLoop pv b.streamer body
  let e := postEnd b.state r.1
  ⟨⟨200, [], HBody.text (scru128ToString r.1.packet.id)⟩, e.1, b.events ++ r.2 ++ e.2⟩

/-- An HTTP request: method, path, Accept header (none models both a missing
header and a value that is not a valid string), body chunk results. -/
structure HRequest where
  method : Method
  path : String
  accept : Option String
  body : List (Except String (List Nat))

/-- The router (handle, http.rs lines 15 to 41): GET with a well-formed id
dispatches to get with the Accept header defaulted to text/plain; POST to
the bare slash ingests; everything else is 404. -/
def handle (pv : PreviewFn) (s : State) (req : HRequest) : Option HResponse × State × List Event :=
  match req.method, pathToId req.path with
  | Method.GET, some id =>
      (get pv s id (req.accept.getD "text/plain"), s, [])
  | Method.POST, none =>
      if req.path = "/" then
        let r := post pv s req.body
        (some r.resp, r.state, r.events)
      else (some notFound, s, [])
  | _, _ => (some notFound, s, [])

/-- Modelled from the spec: xs::store_cat, the read_from contract (section
4.1): all frames with id greater than the cursor in ascending id order, or
every frame when the cursor is absent. The xs module is not in the visible
sources. -/
def store_cat (log : List Frame) (last_id : Option Nat) : List Frame :=
  match last_id with
  | none => log
  | some c => log.filter (fun f => c < f.id)

/-- One iteration of the tailer loop body (start_child_process, main.rs lines
132 to 145): read from the cursor, then advance the cursor over each
returned frame while forwarding it to the producer. -/
def tailerStep (last_id : Option Nat) (log : List Frame) : Option Nat × List Frame :=
  let frames := store_cat log last_id
  (frames.foldl (fun _ f => some f.id) last_id, frames)

/-- The tailer loop across successive log snapshots: one step per snapshot,
returning the final cursor and all published frames in order. -/
def tailerRun (last_id : Option Nat) (logs : List (List Frame)) : Option Nat × List Frame :=
  match logs with
  | [] => (last_id, [])
  | log :: rest =>
      let q := tailerStep last_id log
      let r := tailerRun q.1 rest
      (r.1, q.2 ++ r.2)

/-- Cursor order: holds when the cursor does not rewind. -/
def cLe (a b : Option Nat) : Prop :=
  match a, b with
  | none, _ => True
  | some _, none => False
  | some x, some y => x ≤ y

/-- Strictly above the cursor. -/
def cLt (a : Option Nat) (n : Nat) : Prop :=
  match a with
  | none => True
  | some x => x < n

/-- The Ok chunk payloads of a request body, in order. -/
def okChunks (body : List (Except String (List Nat))) : List (List Nat) :=
  body.filterMap (fun ch =>
    match ch with
    | Except.ok c => some c
    | Except.error _ => none)

/-- Projection of an event to its word and char counts. -/
def evWordsChars : Event → Nat × Nat
  | Event.refreshItems => (0, 0)
  | Event.streaming _ c => (c.words, c.chars)

lemma postLoop_shift (pv : PreviewFn) (body : List (Except String (List Nat))) :
    ∀ (st : InProgressStream) (acc : List Event),
    body.foldl (postLoopF pv) (st, acc) = ((postLoop pv st body).1, acc ++ (postLoop pv st body).2) := by
  induction body with
  | nil => intro st acc ; simp [postLoop]
  | cons ch rest ih =>
      intro st acc
      cases ch with
      | ok c =>
          simp only [postLoop, List.foldl_cons, postLoopF]
          rw [ih, ih]
          simp
      | error e =>
          simp only [postLoop, List.foldl_cons, postLoopF]
          rw [ih, ih]
          simp

lemma postLoop_cons_ok (pv : PreviewFn) (st : InProgressStream) (c : List Nat)
    (body : List (Except String (List Nat))) :
    postLoop pv st (Except.ok c :: body) =
      ((postLoop pv (processChunk pv st c).1 body).1,
        (processChunk pv st c).2 :: (postLoop pv (processChunk pv st c).1 body).2) := by
  simp only [postLoop, List.foldl_cons, postLoopF]
  rw [postLoop_shift]
  simp [postLoop]

lemma postLoop_cons_err (pv : PreviewFn) (st : InProgressStream) (msg : String)
    (body : List (Except String (List Nat))) :
    postLoop pv st (Except.error msg :: body) = postLoop pv st body := by
  simp only [postLoop, List.foldl_cons, postLoopF]

lemma postLoop_packet (pv : PreviewFn) (body : List (Except String (List Nat))) :
    ∀ st : InProgressStream, (postLoop pv st body).1.packet = st.packet := by
  induction body with
  | nil => intro st ; rfl
  | cons ch rest ih =>
      intro st
      cases ch with
      | ok c => rw [postLoop_cons_ok] ; exact ih _
      | error e => rw [postLoop_cons_err] ; exact ih st

lemma postLoop_content (pv : PreviewFn) (body : List (Except String (List Nat))) :
    ∀ st : InProgressStream,
    (postLoop pv st body).1.content = st.content ++ (okChunks body).flatten := by
  induction body with
  | nil => intro st ; simp [postLoop, okChunks]
  | cons ch rest ih =>
      intro st
      cases ch with
      | ok c =>
          rw [postLoop_cons_ok]
          show (postLoop pv (processChunk pv st c).1 rest).1.content = _
          rw [ih]
          simp [processChunk, InProgressStream.append, okChunks]
      | error e =>
          rw [postLoop_cons_err, ih]
          simp [okChunks]

lemma postLoop_events (pv : PreviewFn) (body : List (Except String (List Nat))) :
    ∀ (st : InProgressStream) (e : Event), e ∈ (postLoop pv st body).2 →
    ∃ bs, e = Event.streaming st.packet.id
      ⟨MimeType.TextPlain, "Text", String.mk ((utf8Lossy bs).take 100), 0,
        wordCount (utf8Lossy bs), (utf8Lossy bs).length,
        pv "dark" (some bs) MimeType.TextPlain "Text" true⟩ := by
  induction body with
  | nil => intro st e h ; simp [postLoop] at h
  | cons ch rest ih =>
      intro st e h
      cases ch with
      | ok c =>
          rw [postLoop_cons_ok] at h
          rcases List.mem_cons.mp h with h1 | h2
          · refine ⟨st.content ++ c, ?_⟩
            rw [h1]
            simp [processChunk, InProgressStream.append]
          · obtain ⟨bs, hbs⟩ := ih _ e h2
            exact ⟨bs, by rw [hbs] ; simp [processChunk, InProgressStream.append]⟩
      | error msg =>
          rw [postLoop_cons_err] at h
          exact ih st e h

lemma postLoop_length (pv : PreviewFn) (body : List (Except String (List Nat))) :
    ∀ st : InProgressStream, (postLoop pv st body).2.length = (okChunks body).length := by
  induction body with
  | nil => intro st ; rfl
  | cons ch rest ih =>
      intro st
      cases ch with
      | ok c =>
          rw [postLoop_cons_ok]
          simp only [okChunks, List.filterMap_cons, List.length_cons]
          exact congrArg Nat.succ (ih _)
      | error msg =>
          rw [postLoop_cons_err]
          simp only [okChunks, List.filterMap_cons]
          exact ih st

lemma postBegin_streamer (s : State) :
    (postBegin s).streamer =
      ⟨⟨(s.get_curr_stack).2.next_id, some (s.get_curr_stack).1, none⟩, []⟩ := rfl

lemma postBegin_selection (s : State) : (postBegin s).state.selection = none := rfl

lemma postBegin_events (s : State) : (postBegin s).events = [Event.refreshItems] := rfl

lemma get_curr_stack_store (s : State) : (s.get_curr_stack).2.store = s.store := by
  cases hsel : s.selection <;> simp [State.get_curr_stack, hsel, State.mint]

lemma postBegin_store (s : State) : (postBegin s).state.store = s.store := by
  show (s.get_curr_stack).2.store = s.store
  exact get_curr_stack_store s

lemma post_def (pv : PreviewFn) (s : State) (body : List (Except String (List Nat))) :
    post pv s body =
      ⟨⟨200, [], HBody.text (scru128ToString (postLoop pv (postBegin s).streamer body).1.packet.id)⟩,
        (postEnd (postBegin s).state (postLoop pv (postBegin s).streamer body).1).1,
        (postBegin s).events ++ (postLoop pv (postBegin s).streamer body).2 ++
          (postEnd (postBegin s).state (postLoop pv (postBegin s).streamer body).1).2⟩ := rfl

lemma put_fst (store : Store) (b : List Nat) : (store.put b).1 = contentHash b := by
  cases hc : store.contents.any (fun p => p.1 == contentHash b) <;> simp [Store.put, hc]

lemma put_frames (store : Store) (b : List Nat) : (store.put b).2.frames = store.frames := by
  cases hc : store.contents.any (fun p => p.1 == contentHash b) <;> simp [Store.put, hc]

lemma end_stream_fst (st : InProgressStream) (store : Store) :
    (st.end_stream store).1 = ⟨st.packet.id, st.packet.stack_id, some (contentHash st.content)⟩ := by
  simp [InProgressStream.end_stream, put_fst]

lemma end_stream_snd (st : InProgressStream) (store : Store) :
    (st.end_stream store).2 = (store.put st.content).2 := rfl

lemma postEnd_frames (s : State) (st : InProgressStream) :
    (postEnd s st).1.store.frames =
      s.store.frames ++ [⟨st.packet.id, st.packet.stack_id, some (contentHash st.content)⟩] := by
  show ((st.end_stream s.store).2.insert_packet (st.end_stream s.store).1).frames = _
  simp [Store.insert_packet, end_stream_snd, end_stream_fst, put_frames]

lemma postEnd_view (s : State) (st : InProgressStream) :
    (postEnd s st).1.view =
      s.view.merge ⟨st.packet.id, st.packet.stack_id, some (contentHash st.content)⟩ := by
  show s.view.merge (st.end_stream s.store).1 = _
  rw [end_stream_fst]

lemma postEnd_events (s : State) (st : InProgressStream) :
    (postEnd s st).2 = [Event.refreshItems] := rfl

lemma merge_fresh (v : View) (f : Frame) (h : ∀ it ∈ v.items, it.id ≠ f.id) :
    v.merge f = ⟨v.items ++ [⟨f.id, f.stack_id, f.hash⟩]⟩ := by
  have hany : v.items.any (fun it => it.id == f.id) = false := by
    rw [List.any_eq_false]
    intro it hit
    simpa using h it hit
  simp [View.merge, hany]

lemma merge_update (l1 : List Item) (n : Nat) (sid hs : Option Nat) (f : Frame)
    (hl1 : ∀ it ∈ l1, it.id ≠ n) (hf : f.id = n) :
    View.merge ⟨l1 ++ [⟨n, sid, hs⟩]⟩ f = ⟨l1 ++ [⟨n, f.stack_id, f.hash⟩]⟩ := by
  have hany : (l1 ++ [(⟨n, sid, hs⟩ : Item)]).any (fun it => it.id == f.id) = true := by
    rw [List.any_eq_true]
    exact ⟨⟨n, sid, hs⟩, by simp [hf]⟩
  have hmap : l1.map (fun it => if it.id == f.id then (⟨it.id, f.stack_id, f.hash⟩ : Item) else it)
      = l1 := by
    have := List.map_congr_left (l := l1)
      (f := fun it => if it.id == f.id then (⟨it.id, f.stack_id, f.hash⟩ : Item) else it)
      (g := id) (fun it hit => by simp [hf, hl1 it hit])
    simpa using this
  simp only [View.merge, hany, if_true, List.map_append]
  rw [hmap]
  simp [hf]

lemma lookup_append_last (l1 : List Item) (x : Item) (n : Nat)
    (h : ∀ it ∈ l1, it.id ≠ n) (hx : x.id = n) :
    View.lookup ⟨l1 ++ [x]⟩ n = some x := by
  unfold View.lookup
  rw [List.find?_append]
  have h1 : l1.find? (fun it => it.id == n) = none := by
    rw [List.find?_eq_none]
    intro it hit
    simpa using h it hit
  rw [h1]
  simp [hx]

lemma postBegin_reduce_some (s : State) (sid : Nat) (hsel : s.selection = some sid) :
    (postBegin s).streamer.packet.id = s.next_id ∧ (s.get_curr_stack).1 = sid ∧
    (postBegin s).state.view = s.view.merge ⟨s.next_id, some sid, none⟩ := by
  refine ⟨?_, ?_, ?_⟩ <;>
    simp only [postBegin, State.get_curr_stack, State.mint, InProgressStream.new, hsel]

lemma postBegin_reduce_none (s : State) (hsel : s.selection = none) :
    (postBegin s).streamer.packet.id = s.next_id + 1 ∧ (s.get_curr_stack).1 = s.next_id ∧
    (postBegin s).state.view =
      (s.view.merge ⟨s.next_id, none, none⟩).merge ⟨s.next_id + 1, some s.next_id, none⟩ := by
  refine ⟨?_, ?_, ?_⟩ <;>
    simp only [postBegin, State.get_curr_stack, State.mint, InProgressStream.new, hsel]

lemma postBegin_view (s : State) (hfresh : ∀ it ∈ s.view.items, it.id < s.next_id) :
    ∃ l1 : List Item,
      (postBegin s).state.view.items =
        l1 ++ [⟨(postBegin s).streamer.packet.id, some (s.get_curr_stack).1, none⟩] ∧
      (∀ it ∈ l1, it.id ≠ (postBegin s).streamer.packet.id) := by
  cases hsel : s.selection with
  | some sid =>
      obtain ⟨hid, hq1, hv⟩ := postBegin_reduce_some s sid hsel
      refine ⟨s.view.items, ?_, ?_⟩
      · rw [hid, hq1, hv, merge_fresh _ _ (fun it hit => Nat.ne_of_lt (hfresh it hit))]
      · intro it hit
        rw [hid]
        exact Nat.ne_of_lt (hfresh it hit)
  | none =>
      obtain ⟨hid, hq1, hv⟩ := postBegin_reduce_none s hsel
      have h1 : ∀ it ∈ s.view.items, it.id ≠ s.next_id :=
        fun it hit => Nat.ne_of_lt (hfresh it hit)
      have hm1 : s.view.merge ⟨s.next_id, none, none⟩ =
          ⟨s.view.items ++ [⟨s.next_id, none, none⟩]⟩ := merge_fresh _ _ h1
      have h2 : ∀ it ∈ s.view.items ++ [(⟨s.next_id, none, none⟩ : Item)],
          it.id ≠ s.next_id + 1 := by
        intro it hit
        rcases List.mem_append.mp hit with hh | hh
        · exact Nat.ne_of_lt (Nat.lt_succ_of_lt (hfresh it hh))
        · rcases List.mem_singleton.mp hh with rfl
          exact Nat.ne_of_lt (Nat.lt_succ_self _)
      refine ⟨s.view.items ++ [⟨s.next_id, none, none⟩], ?_, ?_⟩
      · rw [hid, hq1, hv, hm1, merge_fresh _ _ h2]
      · intro it hit
        rw [hid]
        exact h2 it hit

/-- Cursor after a batch: unchanged for an empty batch, else the last id. -/
def updC (c : Option Nat) (ids : List Nat) : Option Nat :=
  match ids.getLast? with
  | none => c
  | some m => some m

lemma updC_none (ids : List Nat) : updC none ids = ids.getLast? := by
  unfold updC
  cases ids.getLast? <;> rfl

lemma updC_append (c : Option Nat) (l1 l2 : List Nat) :
    updC c (l1 ++ l2) = updC (updC c l1) l2 := by
  unfold updC
  rw [List.getLast?_append]
  cases h : l2.getLast? <;> cases h1 : l1.getLast? <;> simp [Option.or]

lemma cLe_refl (c : Option Nat) : cLe c c := by
  cases c <;> simp [cLe]

lemma cLe_updC (c : Option Nat) (ids : List Nat) (h : ∀ x ∈ ids, cLt c x) :
    cLe c (updC c ids) := by
  unfold updC
  cases hl : ids.getLast? with
  | none => exact cLe_refl c
  | some m =>
      have hm : m ∈ ids := List.mem_of_mem_getLast? hl
      have := h m hm
      cases c with
      | none => simp [cLe]
      | some x => simpa [cLe, cLt] using Nat.le_of_lt (by simpa [cLt] using this)

lemma foldl_last (frames : List Frame) : ∀ c : Option Nat,
    frames.foldl (fun _ f => some f.id) c = updC c (frames.map Frame.id) := by
  induction frames with
  | nil => intro c ; rfl
  | cons f rest ih =>
      intro c
      rw [List.foldl_cons, ih]
      cases h : (rest.map Frame.id).getLast? <;>
        simp [updC, List.getLast?_cons, h]

lemma le_last_of_pairwise : ∀ l : List Nat, l.Pairwise (· < ·) →
    ∀ x ∈ l, ∀ m, l.getLast? = some m → x ≤ m := by
  intro l
  induction l with
  | nil => intro _ x hx ; cases hx
  | cons a t ih =>
      intro hp x hx m hm
      rw [List.getLast?_cons] at hm
      cases ht : t.getLast? with
      | none =>
          have htn : t = [] := by
            by_contra hne
            have := List.getLast?_isSome.mpr hne
            rw [ht] at this
            cases this
          subst htn
          rcases List.mem_singleton.mp hx with rfl
          simp [ht] at hm
          omega
      | some b =>
          rw [ht] at hm
          simp at hm
          subst hm
          have hbmem : b ∈ t := List.mem_of_mem_getLast? ht
          rcases List.mem_cons.mp hx with rfl | hxt
          · exact Nat.le_of_lt ((List.pairwise_cons.mp hp).1 b hbmem)
          · exact ih (List.pairwise_cons.mp hp).2 x hxt b ht

lemma tailerStep_pub (c : Option Nat) (log : List Frame)
    (hlog : (log.map Frame.id).Pairwise (· < ·)) :
    ((tailerStep c log).2.map Frame.id).Pairwise (· < ·) ∧
    (∀ f ∈ (tailerStep c log).2, cLt c f.id) ∧
    (tailerStep c log).1 = updC c ((tailerStep c log).2.map Frame.id) := by
  cases c with
  | none =>
      refine ⟨?_, ?_, ?_⟩
      · simpa [tailerStep, store_cat] using hlog
      · intro f _ ; trivial
      · simpa [tailerStep, store_cat] using foldl_last log none
  | some x =>
      refine ⟨?_, ?_, ?_⟩
      · exact List.Pairwise.sublist
          (List.Sublist.map Frame.id (List.filter_sublist log)) hlog
      · intro f hf
        have h2 : f ∈ log ∧ x < f.id := by
          simpa [tailerStep, store_cat, List.mem_filter] using hf
        simpa [cLt] using h2.2
      · simpa [tailerStep, store_cat] using foldl_last (log.filter fun f => x < f.id) (some x)

lemma tailerRun_spec (logs : List (List Frame)) :
    ∀ c : Option Nat, (∀ log ∈ logs, (log.map Frame.id).Pairwise (· < ·)) →
    ((tailerRun c logs).2.map Frame.id).Pairwise (· < ·) ∧
    (∀ f ∈ (tailerRun c logs).2, cLt c f.id) ∧
    (tailerRun c logs).1 = updC c ((tailerRun c logs).2.map Frame.id) := by
  induction logs with
  | nil =>
      intro c _
      exact ⟨List.Pairwise.nil, by simp [tailerRun], rfl⟩
  | cons log rest ih =>
      intro c hlogs
      obtain ⟨hp1, hm1, hc1⟩ := tailerStep_pub c log (hlogs log (List.mem_cons_self _ _))
      obtain ⟨hp2, hm2, hc2⟩ :=
        ih (tailerStep c log).1 (fun l hl => hlogs l (List.mem_cons_of_mem _ hl))
      have hrun : tailerRun c (log :: rest) =
          ((tailerRun (tailerStep c log).1 rest).1,
            (tailerStep c log).2 ++ (tailerRun (tailerStep c log).1 rest).2) := rfl
      have hcross : ∀ f ∈ (tailerRun (tailerStep c log).1 rest).2, cLt c f.id := by
        intro f hf
        have hf2 := hm2 f hf
        cases hq : ((tailerStep c log).2.map Frame.id).getLast? with
        | none =>
            rw [hc1] at hf2
            unfold updC at hf2
            rw [hq] at hf2
            exact hf2
        | some m =>
            rw [hc1] at hf2
            unfold updC at hf2
            rw [hq] at hf2
            have hmlt : m < f.id := by simpa [cLt] using hf2
            cases c with
            | none => trivial
            | some x =>
                obtain ⟨g, hg, hgid⟩ := List.mem_map.mp (List.mem_of_mem_getLast? hq)
                have hxg : x < g.id := by simpa [cLt] using hm1 g hg
                simp only [cLt]
                omega
      refine ⟨?_, ?_, ?_⟩
      · rw [hrun]
        simp only [List.map_append]
        rw [List.pairwise_append]
        refine ⟨hp1, hp2, ?_⟩
        intro a ha b hb
        obtain ⟨fa, hfa, hfaid⟩ := List.mem_map.mp ha
        obtain ⟨fb, hfb, hfbid⟩ := List.mem_map.mp hb
        cases hq : ((tailerStep c log).2.map Frame.id).getLast? with
        | none =>
            exfalso
            have : (tailerStep c log).2.map Frame.id ≠ [] := by
              intro hnil
              rw [hnil] at ha
              cases ha
            have := List.getLast?_isSome.mpr this
            rw [hq] at this
            cases this
        | some m =>
            have ham : a ≤ m := le_last_of_pairwise _ hp1 a ha m hq
            have hbf := hm2 fb hfb
            rw [hc1] at hbf
            unfold updC at hbf
            rw [hq] at hbf
            have : m < fb.id := by simpa [cLt] using hbf
            omega
      · rw [hrun]
        intro f hf
        rcases List.mem_append.mp hf with hh | hh
        · exact hm1 f hh
        · exact hcross f hh
      · rw [hrun]
        simp only [List.map_append]
        rw [updC_append, ← hc1]
        exact hc2

lemma tailerRun_append (c : Option Nat) (l1 l2 : List (List Frame)) :
    tailerRun c (l1 ++ l2) =
      ((tailerRun (tailerRun c l1).1 l2).1,
        (tailerRun c l1).2 ++ (tailerRun (tailerRun c l1).1 l2).2) := by
  induction l1 generalizing c with
  | nil => simp [tailerRun]
  | cons log rest ih =>
      simp only [List.cons_append, tailerRun, List.append_eq]
      rw [ih]
      simp [List.append_assoc]

lemma post_events (pv : PreviewFn) (s : State) (body : List (Except String (List Nat))) :
    (post pv s body).events =
      (Event.refreshItems :: (postLoop pv (postBegin s).streamer body).2) ++
        [Event.refreshItems] := rfl

/-- A concrete preview collaborator used in witnesses. -/
def pvX : PreviewFn := fun _ _ _ _ _ => "PV"

/-- A second concrete preview collaborator used to show the preview is unused. -/
def pvY : PreviewFn := fun _ _ _ _ _ => "OTHER"

/-- A concrete view: item 1 is a stack, item 2 a leaf under it with blob 50. -/
def viewX : View := ⟨[⟨1, none, none⟩, ⟨2, some 1, some 50⟩]⟩

/-- A concrete store holding blob 50 with content "a" and text metadata. -/
def storeX : Store := ⟨[(50, [97])], [(50, ⟨MimeType.TextPlain, "Text"⟩)], []⟩

/-- A concrete state with no selection. -/
def stateX : State := ⟨viewX, storeX, none, 100⟩

/-- A concrete state with stack 1 selected. -/
def stateSel : State := ⟨viewX, storeX, some 1, 100⟩

/-- The empty state. -/
def stEmpty : State := ⟨⟨[]⟩, ⟨[], [], []⟩, none, 0⟩

/-- A concrete GET request with a malformed id segment and no Accept header. -/
def reqW : HRequest := ⟨Method.GET, "/zz", none, []⟩

/-- Concrete successive log snapshots for the tailer, ids ascending. -/
def logsW : List (List Frame) :=
  [[], [⟨1, none, none⟩], [⟨1, none, none⟩, ⟨2, some 1, none⟩]]

/-- C1: for every GET whose path segment is not a well-formed identifier, or
is well-formed but resolves to no known Item, handle returns the very same
not-found response (status 404, never a server error), leaving state and
events untouched; the malformed and unknown cases are literally identical. -/
theorem C1_get_notfound (pv : PreviewFn) (s : State) (req : HRequest)
    (hm : req.method = Method.GET)
    (hid : pathToId req.path = none ∨
      ∃ i, pathToId req.path = some i ∧ s.view.lookup i = none) :
    handle pv s req = (some notFound, s, []) := by
  rcases hid with hnone | ⟨i, hi, hl⟩
  · simp [handle, hm, hnone]
  · simp [handle, hm, hi, get, hl]

/-- Witness for C1 at the malformed path of reqW. -/
theorem C1_get_notfound_witness :
    reqW.method = Method.GET ∧ pathToId reqW.path = none ∧
    handle pvX stEmpty reqW = (some notFound, stEmpty, []) :=
  ⟨rfl, by decide, C1_get_notfound pvX stEmpty reqW rfl (Or.inl (by decide))⟩

/-- C2 counterexample: GET of leaf item 2 of stateX streams its blob bytes,
but the response carries no headers at all, hence no Content-Type header
derived from the stored metadata, contrary to the claim. -/
theorem C2_counterexample :
    get pvX stateX 2 "text/plain" = some ⟨200, [], HBody.bytes [97]⟩ ∧
    (get pvX stateX 2 "text/plain").map (fun r => r.headers) = some [] := by
  exact ⟨rfl, rfl⟩

/-- C2 (amended): for every GET whose id resolves to a leaf Item (one with a
parent stack) whose hash resolves in the blob cache, the response is 200
with the blob bytes as body and an empty header list: no Content-Type
header is set at all. -/
theorem C2_leaf_get (pv : PreviewFn) (s : State) (id : Nat) (item : Item) (h : Nat)
    (content : List Nat) (accept : String)
    (hlook : s.view.lookup id = some item)
    (hleaf : item.stack_id.isSome = true)
    (hhash : item.hash = some h)
    (hcontent : s.store.get_content h = some content) :
    get pv s id accept = some ⟨200, [], HBody.bytes content⟩ := by
  obtain ⟨v, hv⟩ := Option.isSome_iff_exists.mp hleaf
  simp [get, hlook, hv, hhash, hcontent]

/-- Witness for C2 (amended) at leaf item 2 of stateX. -/
theorem C2_leaf_get_witness :
    stateX.view.lookup 2 = some ⟨2, some 1, some 50⟩ ∧
    stateX.store.get_content 50 = some [97] ∧
    get pvX stateX 2 "text/html" = some ⟨200, [], HBody.bytes [97]⟩ :=
  ⟨by decide, by decide,
    C2_leaf_get pvX stateX 2 ⟨2, some 1, some 50⟩ 50 [97] "text/html"
      (by decide) (by decide) (by decide) (by decide)⟩

/-- Stated from the claim's words: children contents joined with newline
separators in between (no trailing newline). -/
def bodySeparated (chunks : List (List Nat)) : List Nat :=
  (chunks.intersperse [10]).flatten

/-- C3 counterexample: the stack response for the single child with content
"a" is that content followed by a newline byte, which differs from the
newline-separated concatenation the claim describes. -/
theorem C3_counterexample :
    get pvX stateX 1 "text/plain" = some ⟨200, [], HBody.bytes [97, 10]⟩ ∧
    HBody.bytes [97, 10] ≠ HBody.bytes (bodySeparated [[97]]) :=
  ⟨rfl, by decide⟩

/-- C3 (amended): for every GET whose id resolves to a stack (an item with no
parent), when every child resolves in the store the body is the
concatenation over the children, in order, of the child's rendering followed
by one newline (so the output is newline-terminated, not just separated);
the rendering is the raw content unless the Accept header is exactly
text/html, in which case it is the preview collaborator's output. -/
theorem C3_stack_get (pv : PreviewFn) (s : State) (id : Nat) (item : Item)
    (accept : String) (ps : List (ContentMeta × List Nat))
    (hlook : s.view.lookup id = some item)
    (hstack : item.stack_id = none)
    (hres : (s.view.children item).mapM (resolveChild s.store) = some ps) :
    get pv s id accept =
      some ⟨200, [], HBody.bytes ((ps.map (renderChild pv accept)).flatten)⟩ ∧
    (accept ≠ "text/html" →
      ps.map (renderChild pv accept) = ps.map (fun p => p.2 ++ [10])) ∧
    (accept = "text/html" →
      ps.map (renderChild pv accept) = ps.map (fun p =>
        utf8Encode (pv "light" (some p.2) p.1.mime_type p.1.content_type false) ++ [10])) := by
  refine ⟨?_, ?_, ?_⟩
  · have h1 : get pv s id accept = get_stack pv s item accept := by
      simp [get, hlook, hstack]
    rw [h1]
    show ((s.view.children item).mapM (resolveChild s.store)).bind
        (fun qs => (some (HResponse.mk 200 []
          (HBody.bytes ((qs.map (renderChild pv accept)).flatten))) : Option HResponse)) =
      some (HResponse.mk 200 [] (HBody.bytes ((ps.map (renderChild pv accept)).flatten)))
    rw [hres]
    rfl
  · intro hacc
    exact List.map_congr_left (fun p _ => by simp [renderChild, hacc])
  · intro hacc
    exact List.map_congr_left (fun p _ => by simp [renderChild, hacc])

/-- Witness for C3 (amended) at stack 1 of stateX with the html Accept. -/
theorem C3_stack_get_witness :
    stateX.view.lookup 1 = some ⟨1, none, none⟩ ∧
    (stateX.view.children ⟨1, none, none⟩).mapM (resolveChild stateX.store) =
      some [(⟨MimeType.TextPlain, "Text"⟩, [97])] ∧
    get pvX stateX 1 "text/html" =
      some ⟨200, [],
        HBody.bytes (([(⟨MimeType.TextPlain, "Text"⟩, [97])].map
          (renderChild pvX "text/html")).flatten)⟩ :=
  ⟨by decide, by decide,
    (C3_stack_get pvX stateX 1 ⟨1, none, none⟩ "text/html"
      [(⟨MimeType.TextPlain, "Text"⟩, [97])] (by decide) (by decide) (by decide)).1⟩

/-- C4: POST begins the ingestion packet attached to the stack selected at
request time, the state handed to the body-consuming loop already has the
selection cleared, and the response is 200 with the packet id rendered as
the plain-text body. -/
theorem C4_post_lifecycle (pv : PreviewFn) (s : State)
    (body : List (Except String (List Nat))) (sid : Nat)
    (hsel : s.selection = some sid) :
    (postBegin s).streamer.packet.stack_id = some sid ∧
    (postBegin s).state.selection = none ∧
    (post pv s body).resp =
      ⟨200, [], HBody.text (scru128ToString (postBegin s).streamer.packet.id)⟩ := by
  refine ⟨?_, postBegin_selection s, ?_⟩
  · rw [postBegin_streamer]
    simp [State.get_curr_stack, hsel]
  · show (⟨200, [], HBody.text
      (scru128ToString (postLoop pv (postBegin s).streamer body).1.packet.id)⟩ : HResponse) = _
    rw [postLoop_packet]

/-- Witness for C4 at stateSel with one chunk. -/
theorem C4_post_lifecycle_witness :
    stateSel.selection = some 1 ∧
    ((postBegin stateSel).streamer.packet.stack_id = some 1 ∧
      (postBegin stateSel).state.selection = none ∧
      (post pvX stateSel [Except.ok [97]]).resp =
        ⟨200, [], HBody.text (scru128ToString (postBegin stateSel).streamer.packet.id)⟩) :=
  ⟨rfl, C4_post_lifecycle pvX stateSel [Except.ok [97]] 1 rfl⟩

/-- C5: each Ok chunk is appended to the accumulation buffer and synchronously
yields one live streaming update tagged with the packet id whose preview,
word count, char count and first-100-character terse excerpt are recomputed
from the accumulated content; in particular for a body of chunks "hello "
then "world" the accumulated content is "hello world", and the per-chunk
word and char counts are (1, 6) then (2, 11). -/
theorem C5_chunk_updates (pv : PreviewFn) (s : State) (st : InProgressStream)
    (chunk : List Nat) :
    (processChunk pv st chunk).1.content = st.content ++ chunk ∧
    (processChunk pv st chunk).2 = Event.streaming st.packet.id
      ⟨MimeType.TextPlain, "Text",
        String.mk ((utf8Lossy (st.content ++ chunk)).take 100), 0,
        wordCount (utf8Lossy (st.content ++ chunk)),
        (utf8Lossy (st.content ++ chunk)).length,
        pv "dark" (some (st.content ++ chunk)) MimeType.TextPlain "Text" true⟩ ∧
    (postLoop pv (postBegin s).streamer
        [Except.ok [104, 101, 108, 108, 111, 32],
          Except.ok [119, 111, 114, 108, 100]]).1.content
      = [104, 101, 108, 108, 111, 32, 119, 111, 114, 108, 100] ∧
    ((postLoop pv (postBegin s).streamer
        [Except.ok [104, 101, 108, 108, 111, 32],
          Except.ok [119, 111, 114, 108, 100]]).2.map evWordsChars)
      = [(1, 6), (2, 11)] := by
  have hc : (postBegin s).streamer.content = [] := rfl
  refine ⟨rfl, ?_, ?_, ?_⟩
  · simp [processChunk, InProgressStream.append]
  · rw [postLoop_content, hc]
    decide
  · rw [postLoop_cons_ok, postLoop_cons_ok]
    simp only [postLoop, List.foldl_nil, List.map_cons, List.map_nil]
    simp only [processChunk, InProgressStream.append, evWordsChars, hc]
    decide

/-- C6: failed chunk reads are skipped without aborting the upload: the final
accumulated content is the concatenation of exactly the Ok chunks in order,
one streaming update is emitted per Ok chunk, and the handler still commits
the accumulated content (the committed frame is appended to the frame log
with its hash) and responds 200 with the packet id as body. -/
theorem C6_bad_chunks_skipped (pv : PreviewFn) (s : State)
    (body : List (Except String (List Nat))) :
    (post pv s body).resp.status = 200 ∧
    (post pv s body).resp.body =
      HBody.text (scru128ToString (postBegin s).streamer.packet.id) ∧
    (postLoop pv (postBegin s).streamer body).1.content = (okChunks body).flatten ∧
    (postLoop pv (postBegin s).streamer body).2.length = (okChunks body).length ∧
    (post pv s body).state.store.frames =
      s.store.frames ++ [⟨(postBegin s).streamer.packet.id,
        (postBegin s).streamer.packet.stack_id,
        some (contentHash ((okChunks body).flatten))⟩] := by
  have hc : (postBegin s).streamer.content = [] := rfl
  refine ⟨rfl, ?_, ?_, postLoop_length pv body _, ?_⟩
  · show HBody.text
      (scru128ToString (postLoop pv (postBegin s).streamer body).1.packet.id) = _
    rw [postLoop_packet]
  · rw [postLoop_content, hc]
    rfl
  · show (postEnd (postBegin s).state
      (postLoop pv (postBegin s).streamer body).1).1.store.frames = _
    rw [postEnd_frames, postBegin_store, postLoop_packet, postLoop_content, hc]
    rfl

/-- C7: the packet id minted at begin is stable end to end: the response body
renders it, every streaming update is tagged with it, the placeholder merged
at begin carries it, and the final merge updates that very item in place
(same id and position, hash now set, no additional item created). -/
theorem C7_stable_id (pv : PreviewFn) (s : State)
    (body : List (Except String (List Nat)))
    (hfresh : ∀ it ∈ s.view.items, it.id < s.next_id) :
    (post pv s body).resp.body =
      HBody.text (scru128ToString (postBegin s).streamer.packet.id) ∧
    (∀ i c, Event.streaming i c ∈ (post pv s body).events →
      i = (postBegin s).streamer.packet.id) ∧
    (postBegin s).state.view.lookup (postBegin s).streamer.packet.id =
      some ⟨(postBegin s).streamer.packet.id, some (s.get_curr_stack).1, none⟩ ∧
    (post pv s body).state.view.lookup (postBegin s).streamer.packet.id =
      some ⟨(postBegin s).streamer.packet.id, some (s.get_curr_stack).1,
        some (contentHash ((okChunks body).flatten))⟩ ∧
    (post pv s body).state.view.items.length = (postBegin s).state.view.items.length := by
  obtain ⟨l1, hshape, hne⟩ := postBegin_view s hfresh
  have hc : (postBegin s).streamer.content = [] := rfl
  have hstF : (postLoop pv (postBegin s).streamer body).1.packet
      = (postBegin s).streamer.packet := postLoop_packet pv body _
  have hstC : (postLoop pv (postBegin s).streamer body).1.content
      = (okChunks body).flatten := by
    rw [postLoop_content, hc]
    rfl
  have hview : (post pv s body).state.view =
      View.merge ⟨l1 ++ [⟨(postBegin s).streamer.packet.id, some (s.get_curr_stack).1, none⟩]⟩
        ⟨(postBegin s).streamer.packet.id, some (s.get_curr_stack).1,
          some (contentHash ((okChunks body).flatten))⟩ := by
    show (postEnd (postBegin s).state (postLoop pv (postBegin s).streamer body).1).1.view = _
    rw [postEnd_view, hstF, hstC]
    congr 1
    exact congrArg View.mk hshape
  have hfinal : (post pv s body).state.view.items =
      l1 ++ [⟨(postBegin s).streamer.packet.id, some (s.get_curr_stack).1,
        some (contentHash ((okChunks body).flatten))⟩] := by
    rw [hview, merge_update l1 ((postBegin s).streamer.packet.id)
      (some (s.get_curr_stack).1) none
      ⟨(postBegin s).streamer.packet.id, some (s.get_curr_stack).1,
        some (contentHash ((okChunks body).flatten))⟩ hne rfl]
  refine ⟨?_, ?_, ?_, ?_, ?_⟩
  · show HBody.text
      (scru128ToString (postLoop pv (postBegin s).streamer body).1.packet.id) = _
    rw [hstF]
  · intro i c hmem
    rw [post_events] at hmem
    rcases List.mem_append.mp hmem with hh | hh
    · rcases List.mem_cons.mp hh with heq | hloop
      · exact absurd heq (by simp)
      · obtain ⟨bs, hbs⟩ := postLoop_events pv body _ _ hloop
        injection hbs with h1 h2
    · simp at hh
  · show View.lookup ⟨(postBegin s).state.view.items⟩ _ = _
    rw [hshape]
    exact lookup_append_last l1 _ _ hne rfl
  · show View.lookup ⟨(post pv s body).state.view.items⟩ _ = _
    rw [hfinal]
    exact lookup_append_last l1 _ _ hne rfl
  · rw [hfinal, hshape]
    simp

/-- Witness for C7 at stateX with one chunk. -/
theorem C7_stable_id_witness :
    (∀ it ∈ stateX.view.items, it.id < stateX.next_id) ∧
    (post pvX stateX [Except.ok [97]]).resp.body =
      HBody.text (scru128ToString (postBegin stateX).streamer.packet.id) ∧
    (post pvX stateX [Except.ok [97]]).state.view.lookup
        (postBegin stateX).streamer.packet.id =
      some ⟨(postBegin stateX).streamer.packet.id, some (stateX.get_curr_stack).1,
        some (contentHash ((okChunks [Except.ok [97]]).flatten))⟩ ∧
    (post pvX stateX [Except.ok [97]]).state.view.items.length =
      (postBegin stateX).state.view.items.length :=
  ⟨by decide,
    (C7_stable_id pvX stateX [Except.ok [97]] (by decide)).1,
    (C7_stable_id pvX stateX [Except.ok [97]] (by decide)).2.2.2.1,
    (C7_stable_id pvX stateX [Except.ok [97]] (by decide)).2.2.2.2⟩

/-- C8: over any sequence of log snapshots each ascending in id, the tailer
started with an empty cursor publishes frames with strictly increasing ids
(so the published ids are without duplicate and no frame is ever forwarded
twice), after each batch the cursor equals the last, hence highest,
published id so far (or stays empty), the cursor never rewinds between
batches, and each batch only extends the published sequence. -/
theorem C8_tailer_cursor (logs : List (List Frame))
    (hlogs : ∀ log ∈ logs, (log.map Frame.id).Pairwise (· < ·)) :
    ((tailerRun none logs).2.map Frame.id).Pairwise (· < ·) ∧
    ((tailerRun none logs).2.map Frame.id).Nodup ∧
    (∀ k, (tailerRun none (logs.take k)).1 =
      ((tailerRun none (logs.take k)).2.map Frame.id).getLast?) ∧
    (∀ k, cLe (tailerRun none (logs.take k)).1 (tailerRun none (logs.take (k + 1))).1) ∧
    (∀ k, List.IsPrefix (tailerRun none (logs.take k)).2
      (tailerRun none (logs.take (k + 1))).2) := by
  have htake : ∀ k, ∀ log ∈ logs.take k, (log.map Frame.id).Pairwise (· < ·) :=
    fun k log hl => hlogs log (List.take_subset k logs hl)
  have hfull := tailerRun_spec logs none hlogs
  have hsucc : ∀ (k : Nat) (hk : k < logs.length),
      tailerRun none (logs.take (k + 1)) =
        ((tailerRun (tailerRun none (logs.take k)).1 [logs[k]]).1,
          (tailerRun none (logs.take k)).2 ++
            (tailerRun (tailerRun none (logs.take k)).1 [logs[k]]).2) := by
    intro k hk
    rw [List.take_succ, List.getElem?_eq_getElem hk]
    exact tailerRun_append none (logs.take k) [logs[k]]
  refine ⟨hfull.1, hfull.1.nodup, ?_, ?_, ?_⟩
  · intro k
    rw [(tailerRun_spec (logs.take k) none (htake k)).2.2, updC_none]
  · intro k
    by_cases hk : k < logs.length
    · obtain ⟨hp1, hm1, hc1⟩ := tailerStep_pub (tailerRun none (logs.take k)).1 logs[k]
        (hlogs logs[k] (List.getElem_mem hk))
      rw [hsucc k hk]
      show cLe (tailerRun none (logs.take k)).1
        (tailerRun (tailerRun none (logs.take k)).1 [logs[k]]).1
      have hone : (tailerRun (tailerRun none (logs.take k)).1 [logs[k]]).1 =
          (tailerStep (tailerRun none (logs.take k)).1 logs[k]).1 := rfl
      rw [hone, hc1]
      refine cLe_updC _ _ ?_
      intro x hx
      obtain ⟨f, hf, hfid⟩ := List.mem_map.mp hx
      rw [← hfid]
      exact hm1 f hf
    · have h1 : logs.take k = logs := List.take_of_length_le (Nat.le_of_not_lt hk)
      have h2 : logs.take (k + 1) = logs :=
        List.take_of_length_le (Nat.le_succ_of_le (Nat.le_of_not_lt hk))
      rw [h1, h2]
      exact cLe_refl _
  · intro k
    by_cases hk : k < logs.length
    · rw [hsucc k hk]
      exact List.prefix_append _ _
    · have h1 : logs.take k = logs := List.take_of_length_le (Nat.le_of_not_lt hk)
      have h2 : logs.take (k + 1) = logs :=
        List.take_of_length_le (Nat.le_succ_of_le (Nat.le_of_not_lt hk))
      rw [h1, h2]

/-- Witness for C8 on the concrete snapshots logsW. -/
theorem C8_tailer_cursor_witness :
    (∀ log ∈ logsW, (log.map Frame.id).Pairwise (· < ·)) ∧
    ((tailerRun none logsW).2.map Frame.id).Nodup ∧
    (tailerRun none (logsW.take 2)).1 =
      ((tailerRun none (logsW.take 2)).2.map Frame.id).getLast? :=
  ⟨by decide,
    (C8_tailer_cursor logsW (by decide)).2.1,
    (C8_tailer_cursor logsW (by decide)).2.2.1 2⟩

/-- C9: a missing Accept header, or one whose value is not a valid string, is
treated exactly as text/plain by the router, and the HTML preview path of a
stack response requires the Accept value to be exactly text/html: for any
other value the response equals the plain one and is independent of the
preview collaborator. -/
theorem C9_accept_handling (pv pv2 : PreviewFn) (s : State) (req : HRequest)
    (item : Item) (accept : String)
    (hnone : req.accept = none) (hacc : accept ≠ "text/html") :
    handle pv s req = handle pv s { req with accept := some "text/plain" } ∧
    get_stack pv s item accept = get_stack pv2 s item "text/plain" := by
  constructor
  · cases req with
    | mk m p a b =>
        simp only at hnone
        subst hnone
        cases m <;> cases hp : pathToId p <;> simp [handle, hp]
  · have h2 : ("text/plain" : String) ≠ "text/html" := by decide
    unfold get_stack
    cases hres : (s.view.children item).mapM (resolveChild s.store) with
    | none => rfl
    | some ps =>
        have hmap : ps.map (renderChild pv accept) = ps.map (renderChild pv2 "text/plain") :=
          List.map_congr_left (fun p _ => by simp [renderChild, hacc, h2])
        simp [hmap]

/-- Witness for C9: missing Accept on reqW, and the composite HTML Accept
value on stack 1 of stateX. -/
theorem C9_accept_handling_witness :
    reqW.accept = none ∧
    ("text/html, application/xhtml+xml" : String) ≠ "text/html" ∧
    (handle pvX stateX reqW = handle pvX stateX { reqW with accept := some "text/plain" } ∧
      get_stack pvX stateX ⟨1, none, none⟩ "text/html, application/xhtml+xml" =
        get_stack pvY stateX ⟨1, none, none⟩ "text/plain") :=
  ⟨rfl, by decide,
    C9_accept_handling pvX pvY stateX reqW ⟨1, none, none⟩
      "text/html, application/xhtml+xml" rfl (by decide)⟩

/-- C10: every streaming update emitted by POST labels the content TextPlain
with content type "Text" and zero tiktokens unconditionally, and its terse,
word-count, char-count and preview fields are all computed from the lossy
UTF-8 decoding of the accumulated bytes. -/
theorem C10_streaming_fields (pv : PreviewFn) (s : State)
    (body : List (Except String (List Nat))) (i : Nat) (c : Content)
    (hmem : Event.streaming i c ∈ (post pv s body).events) :
    c.mime_type = MimeType.TextPlain ∧ c.content_type = "Text" ∧ c.tiktokens = 0 ∧
    ∃ bs, c.terse = String.mk ((utf8Lossy bs).take 100) ∧
      c.words = wordCount (utf8Lossy bs) ∧ c.chars = (utf8Lossy bs).length ∧
      c.preview = pv "dark" (some bs) MimeType.TextPlain "Text" true := by
  rw [post_events] at hmem
  rcases List.mem_append.mp hmem with hh | hh
  · rcases List.mem_cons.mp hh with heq | hloop
    · exact absurd heq (by simp)
    · obtain ⟨bs, hbs⟩ := postLoop_events pv body _ _ hloop
      injection hbs with h1 h2
      subst h2
      exact ⟨rfl, rfl, rfl, bs, rfl, rfl, rfl, rfl⟩
  · simp at hh

/-- Witness for C10 at the first streaming event of a one-chunk POST. -/
theorem C10_streaming_fields_witness :
    Event.streaming 101 ⟨MimeType.TextPlain, "Text", "h", 0, 1, 1, "PV"⟩ ∈
      (post pvX stateX [Except.ok [104]]).events ∧
    (⟨MimeType.TextPlain, "Text", "h", 0, 1, 1, "PV"⟩ : Content).mime_type =
      MimeType.TextPlain ∧
    (⟨MimeType.TextPlain, "Text", "h", 0, 1, 1, "PV"⟩ : Content).content_type = "Text" ∧
    (⟨MimeType.TextPlain, "Text", "h", 0, 1, 1, "PV"⟩ : Content).tiktokens = 0 :=
  ⟨by decide,
    (C10_streaming_fields pvX stateX [Except.ok [104]] 101
      ⟨MimeType.TextPlain, "Text", "h", 0, 1, 1, "PV"⟩ (by decide)).1,
    (C10_streaming_fields pvX stateX [Except.ok [104]] 101
      ⟨MimeType.TextPlain, "Text", "h", 0, 1, 1, "PV"⟩ (by decide)).2.1,
    (C10_streaming_fields pvX stateX [Except.ok [104]] 101
      ⟨MimeType.TextPlain, "Text", "h", 0, 1, 1, "PV"⟩ (by decide)).2.2.1⟩

end Stacks
